import Mathlib

/-!
Verification of the mDNS service-discovery library (`src/mdns_lib.js`).

The JavaScript source is shallowly embedded: Node `Buffer`s become `List Nat`
(byte lists), JS strings become their byte sequences (`Name := List Nat`),
fallible reads (`Buffer.readUInt8` and friends, which throw on out-of-range
offsets) return `Except String`, and the `while (true)` loop of `read_name`
— which has no guard bounding the number of compression pointers followed —
is given an explicit fuel parameter: `none` means the loop has not finished
within the given fuel (for a self-referential pointer it never finishes, for
any fuel).
-/

namespace MdnsLib

/-- A Node `Buffer`: a list of bytes. -/
abbrev Buffer := List Nat

/-- A JS string, represented by its byte sequence. -/
abbrev Name := List Nat

/-- `buffer.readUInt8(offset)`: throws when `offset` is past the end. -/
def readUInt8 (buf : Buffer) (off : Nat) : Except String Nat :=
  match buf[off]? with
  | some b => .ok b
  | none => .error "offset out of range"

/-- `buffer.readUInt16BE(offset)`. -/
def readUInt16BE (buf : Buffer) (off : Nat) : Except String Nat := do
  let hi ← readUInt8 buf off
  let lo ← readUInt8 buf (off + 1)
  return hi * 256 + lo

/-- `buffer.readUInt32BE(offset)`. -/
def readUInt32BE (buf : Buffer) (off : Nat) : Except String Nat := do
  let hi ← readUInt16BE buf off
  let lo ← readUInt16BE buf (off + 2)
  return hi * 65536 + lo

/-- `buffer.toString('utf8', start, stop)` / `buffer.slice(start, stop)`:
Node clamps both ends to the buffer length and never throws. -/
def bufSub (buf : Buffer) (start stop : Nat) : List Nat :=
  (buf.drop start).take (stop - start)

/-- The byte of the dot character `'.'`. -/
def dotByte : Nat := 46

/-- The loop of `read_name` (mdns_lib.js lines 59-79), with explicit state:
current `offset`, the `jumped` flag, and `original_offset`.  The JS loop has
no bound on how many compression pointers it follows, so the embedding takes
fuel; `none` means the loop did not terminate within the fuel.  Returns the
collected labels and the JS `read_bytes` value
(`jumped ? original_offset : offset`). -/
def read_name_go (buf : Buffer) :
    Nat → Nat → Bool → Nat → Option (Except String (List Name × Nat))
  | 0, _, _, _ => none
  | fuel + 1, offset, jumped, original_offset =>
    match readUInt8 buf offset with
    | .error e => some (.error e)
    | .ok length =>
      if length = 0 then
        some (.ok ([], if jumped then original_offset else offset + 1))
      else if length &&& 0xC0 = 0xC0 then
        match readUInt8 buf (offset + 1) with
        | .error e => some (.error e)
        | .ok b2 =>
          let pointer := ((length &&& 0x3F) <<< 8) ||| b2
          let oo := if jumped then original_offset else offset + 2
          read_name_go buf fuel pointer true oo
      else
        match read_name_go buf fuel (offset + 1 + length) jumped original_offset with
        | none => none
        | some (.error e) => some (.error e)
        | some (.ok (labels, rb)) =>
          some (.ok (bufSub buf (offset + 1) (offset + 1 + length) :: labels, rb))

/-- `read_name(buffer, offset)` (mdns_lib.js lines 54-84): returns
`{ name: labels.join('.'), read_bytes }`. -/
def read_name (fuel : Nat) (buf : Buffer) (offset : Nat) :
    Option (Except String (Name × Nat)) :=
  (read_name_go buf fuel offset false offset).map
    (Except.map (fun r => (List.intercalate [dotByte] r.1, r.2)))

/-! ### Lemmas about `read_name_go`

Once the loop has jumped (`jumped = true`), the labels it still collects
depend only on the buffer and current offset, and the final `read_bytes`
is exactly the saved `original_offset`.  `read_labels` is that
label-collection run in isolation. -/

/-- The label-collecting part of the `read_name` loop, ignoring
`read_bytes` bookkeeping. -/
def read_labels (buf : Buffer) : Nat → Nat → Option (Except String (List Name))
  | 0, _ => none
  | fuel + 1, offset =>
    match readUInt8 buf offset with
    | .error e => some (.error e)
    | .ok length =>
      if length = 0 then some (.ok [])
      else if length &&& 0xC0 = 0xC0 then
        match readUInt8 buf (offset + 1) with
        | .error e => some (.error e)
        | .ok b2 => read_labels buf fuel (((length &&& 0x3F) <<< 8) ||| b2)
      else
        match read_labels buf fuel (offset + 1 + length) with
        | none => none
        | some (.error e) => some (.error e)
        | some (.ok labels) =>
          some (.ok (bufSub buf (offset + 1) (offset + 1 + length) :: labels))

theorem read_name_go_jumped (buf : Buffer) :
    ∀ (fuel offset oo : Nat),
      read_name_go buf fuel offset true oo =
        (read_labels buf fuel offset).map (Except.map (fun ls => (ls, oo))) := by
  intro fuel
  induction fuel with
  | zero => intro offset oo; rfl
  | succ n ih =>
    intro offset oo
    rw [read_name_go, read_labels]
    cases h8 : readUInt8 buf offset with
    | error e => rfl
    | ok length =>
      by_cases h0 : length = 0
      · simp [h0, Except.map]
      · by_cases hptr : length &&& 0xC0 = 0xC0
        · simp only [if_neg h0, if_pos hptr]
          cases h8' : readUInt8 buf (offset + 1) with
          | error e => rfl
          | ok b2 => simpa using ih _ oo
        · simp only [if_neg h0, if_neg hptr]
          rw [ih]
          cases read_labels buf n (offset + 1 + length) with
          | none => rfl
          | some r => cases r with
            | error e => rfl
            | ok labels => rfl

theorem read_name_go_labels (buf : Buffer) :
    ∀ (fuel offset oo : Nat) (ls : List Name) (rb : Nat),
      read_name_go buf fuel offset false oo = some (.ok (ls, rb)) →
      read_labels buf fuel offset = some (.ok ls) := by
  intro fuel
  induction fuel with
  | zero => intro offset oo ls rb h; exact absurd h (by simp [read_name_go])
  | succ n ih =>
    intro offset oo ls rb h
    rw [read_name_go] at h
    rw [read_labels]
    cases h8 : readUInt8 buf offset with
    | error e => rw [h8] at h; simp at h
    | ok length =>
      rw [h8] at h
      by_cases h0 : length = 0
      · simp [h0] at h ⊢
        exact h.1
      · by_cases hptr : length &&& 0xC0 = 0xC0
        · simp only [if_neg h0, if_pos hptr] at h ⊢
          cases h8' : readUInt8 buf (offset + 1) with
          | error e => rw [h8'] at h; simp at h
          | ok b2 =>
            rw [h8'] at h
            simp only at h
            rw [read_name_go_jumped] at h
            cases hl : read_labels buf n (((length &&& 0x3F) <<< 8) ||| b2) with
            | none => rw [hl] at h; simp at h
            | some r =>
              rw [hl] at h
              cases r with
              | error e => simp [Except.map] at h
              | ok ls' =>
                simp [Except.map] at h
                simp [hl, h.1]
        · simp only [if_neg h0, if_neg hptr] at h ⊢
          cases hrec : read_name_go buf n (offset + 1 + length) false oo with
          | none => rw [hrec] at h; simp at h
          | some r =>
            rw [hrec] at h
            cases r with
            | error e => simp at h
            | ok p =>
              obtain ⟨ls', rb'⟩ := p
              rw [ih (offset + 1 + length) oo ls' rb' hrec]
              simp at h
              simp [h.1]

/-! ### C3: a self-referential compression pointer makes `read_name` loop forever

The loop sets `jumped` but never checks it when deciding whether to follow
another pointer, so a pointer whose 14-bit target is its own offset is
followed again and again. -/

/-- A datagram consisting of a 12-byte DNS header followed by the two bytes
`0xC0 0x0C`: a compression pointer whose target is offset 12, i.e. itself. -/
def selfPointerMsg : Buffer :=
  [0, 0, 0, 0, 0, 0, 0, 1, 0, 0, 0, 0, 0xC0, 12]

theorem read_name_go_selfPointer :
    ∀ (fuel : Nat) (j : Bool) (oo : Nat),
      read_name_go selfPointerMsg fuel 12 j oo = none := by
  intro fuel
  induction fuel with
  | zero => intro j oo; rfl
  | succ n ih =>
    intro j oo
    have step : read_name_go selfPointerMsg (n + 1) 12 j oo =
        read_name_go selfPointerMsg n 12 true (if j then oo else 14) := by
      cases j <;> rfl
    rw [step]
    exact ih true _

/-- Claim C3 (code_bug): the spec requires that at most one compression
pointer be followed per name, so that decoding terminates on every input and
a circular pointer chain yields a recoverable decode error.  The code has no
such guard: on `selfPointerMsg`, whose name at offset 12 is a pointer to
itself, the `read_name` loop runs forever — for every fuel bound the
embedded loop fails to finish, so the JS function never returns and the
session never reaches its timeout. -/
theorem c3_read_name_self_pointer_diverges :
    ∀ fuel : Nat, read_name fuel selfPointerMsg 12 = none := by
  intro fuel
  simp [read_name, read_name_go_selfPointer]

/-! ### C4: decoding a name that is a compression pointer -/

theorem readUInt8_of_getElem {buf : Buffer} {off b : Nat} (h : buf[off]? = some b) :
    readUInt8 buf off = .ok b := by
  simp [readUInt8, h]

/-- Claim C4 (corrected, amended form): if the name at `off` starts with a
compression pointer byte `b` (`b &&& 0xC0 = 0xC0`, second byte `b2`), and
decoding at the pointed-to offset `(b &&& 0x3F) <<< 8 ||| b2` succeeds with
name `nm`, then decoding at `off` returns the same name `nm` and reports
`read_bytes = off + 2`: the position immediately after the two pointer
bytes, i.e. the name consumes exactly 2 bytes of the original buffer — not
the length of the target name.  (The claim as frozen says the reported value
itself equals 2; the code reports the absolute resume position `off + 2`,
see `c4_counterexample`.) -/
theorem c4_pointer_decodes_to_target (buf : Buffer) (off fuel b b2 : Nat)
    (nm : Name) (rb : Nat)
    (hb : buf[off]? = some b) (hptr : b &&& 0xC0 = 0xC0)
    (hb2 : buf[off + 1]? = some b2)
    (hdec : read_name fuel buf (((b &&& 0x3F) <<< 8) ||| b2) = some (.ok (nm, rb))) :
    read_name (fuel + 1) buf off = some (.ok (nm, off + 2)) := by
  have hb0 : b ≠ 0 := by
    intro h0
    rw [h0] at hptr
    simp [Nat.zero_and] at hptr
  unfold read_name at hdec
  cases hgo : read_name_go buf fuel (((b &&& 0x3F) <<< 8) ||| b2) false
      (((b &&& 0x3F) <<< 8) ||| b2) with
  | none => rw [hgo] at hdec; simp at hdec
  | some r =>
    rw [hgo] at hdec
    cases r with
    | error e => simp [Except.map] at hdec
    | ok p =>
      obtain ⟨ls, rb'⟩ := p
      simp [Except.map] at hdec
      have hlabels : read_labels buf fuel (((b &&& 0x3F) <<< 8) ||| b2) =
          some (.ok ls) := read_name_go_labels buf fuel _ _ ls rb' hgo
      unfold read_name read_name_go
      rw [readUInt8_of_getElem hb]
      simp only [if_neg hb0, if_pos hptr]
      rw [readUInt8_of_getElem hb2]
      simp only [Bool.false_eq_true, if_false]
      rw [read_name_go_jumped, hlabels]
      simp [Except.map, hdec.1]

/-- A buffer holding the name `foo` at offset 0 (bytes `3 f o o 0`) and, at
offset 5, a name consisting of a single compression pointer `0xC0 0x00`
back to offset 0. -/
def pointerExampleBuf : Buffer := [3, 102, 111, 111, 0, 0xC0, 0]

/-- Claim C4 (counterexample to the claim as frozen): in `pointerExampleBuf`
the name at offset 5 is a pointer to the name `foo` at offset 0.  Decoding
at offset 5 does return the same name as decoding at offset 0, but the
reported `read_bytes` value is `7 = 5 + 2` (the absolute position after the
pointer), not `2` as the claim states. -/
theorem c4_counterexample :
    read_name 6 pointerExampleBuf 0 = some (.ok ([102, 111, 111], 5)) ∧
    read_name 6 pointerExampleBuf 5 = some (.ok ([102, 111, 111], 7)) ∧
    (7 : Nat) ≠ 2 := by
  refine ⟨by rfl, by rfl, by decide⟩

/-- Witness for `c4_pointer_decodes_to_target` at the concrete buffer
`pointerExampleBuf`, offset 5. -/
theorem c4_witness :
    read_name 6 pointerExampleBuf 5 = some (.ok ([102, 111, 111], 7)) := by
  have h := c4_pointer_decodes_to_target pointerExampleBuf 5 5 0xC0 0
    [102, 111, 111] 5 (by decide) (by decide) (by decide) (by rfl)
  simpa using h

/-! ### `build_query` (mdns_lib.js lines 10-44) -/

/-- The bytes of the string `".local"`. -/
def dotLocal : List Nat := [46, 108, 111, 99, 97, 108]

/-- The bytes of the string `"local"`. -/
def localBytes : List Nat := [108, 111, 99, 97, 108]

/-- The QNAME-building loop (lines 22-33): each nonempty part of the query
name becomes one length byte (`writeUInt8(part.length)`, which throws for
values above 255) followed by the part's bytes; empty parts are skipped; a
zero byte terminates. -/
def encode_qname : List (List Nat) → Except String (List Nat)
  | [] => .ok [0]
  | p :: ps =>
    if p = [] then encode_qname ps
    else if 255 < p.length then .error "label length out of range for writeUInt8"
    else
      match encode_qname ps with
      | .error e => .error e
      | .ok rest => .ok ((p.length :: p) ++ rest)

/-- The value `encode_qname` produces when no label is oversized. -/
def encode_labels : List (List Nat) → List Nat
  | [] => [0]
  | p :: ps => if p = [] then encode_labels ps else (p.length :: p) ++ encode_labels ps

/-- The 12-byte header written by `build_query`: id 0, flags 0, QDCOUNT 1,
ANCOUNT/NSCOUNT/ARCOUNT 0. -/
def queryHeader : List Nat := [0, 0, 0, 0, 0, 1, 0, 0, 0, 0, 0, 0]

/-- The 4-byte question footer: QTYPE = PTR (12), QCLASS = IN (1). -/
def queryFooter : List Nat := [0, 12, 0, 1]

/-- `build_query(service_query)`: appends `.local`, splits the full query on
dots, encodes the labels, and wraps them in header and question footer. -/
def build_query (service_query : List Nat) : Except String (List Nat) :=
  let full_service_query := service_query ++ dotLocal
  match encode_qname (full_service_query.splitOn 46) with
  | .error e => .error ("Error building query: " ++ e)
  | .ok qname => .ok (queryHeader ++ qname ++ queryFooter)

/-- `true` iff the computation did not throw. -/
def isOkB {α : Type} (e : Except String α) : Bool :=
  match e with
  | .ok _ => true
  | .error _ => false

theorem encode_qname_isOk (parts : List (List Nat)) :
    isOkB (encode_qname parts) = true ↔ ∀ p ∈ parts, p.length ≤ 255 := by
  induction parts with
  | nil => simp [encode_qname, isOkB]
  | cons p ps ih =>
    by_cases hp : p = []
    · simp only [encode_qname, if_pos hp]
      rw [ih]
      constructor
      · intro h q hq
        rcases List.mem_cons.mp hq with rfl | hq'
        · simp [hp]
        · exact h q hq'
      · intro h q hq; exact h q (List.mem_cons_of_mem _ hq)
    · by_cases hlen : 255 < p.length
      · simp only [encode_qname, if_neg hp, if_pos hlen]
        constructor
        · intro h; exact absurd h (by simp [isOkB])
        · intro h; exact absurd (h p (List.mem_cons_self _ _)) (by omega)
      · simp only [encode_qname, if_neg hp, if_neg hlen]
        cases he : encode_qname ps with
        | error e =>
          rw [he] at ih
          constructor
          · intro h; exact absurd h (by simp [isOkB])
          · intro h
            have hok : isOkB (Except.error e : Except String (List Nat)) = true :=
              ih.mpr (fun q hq => h q (List.mem_cons_of_mem _ hq))
            exact absurd hok (by simp [isOkB])
        | ok rest =>
          rw [he] at ih
          constructor
          · intro _ q hq
            rcases List.mem_cons.mp hq with rfl | hq'
            · omega
            · exact ih.mp (by simp [isOkB]) q hq'
          · intro _; simp [isOkB]

theorem encode_qname_eq_labels (parts : List (List Nat))
    (h : ∀ p ∈ parts, p.length ≤ 255) :
    encode_qname parts = .ok (encode_labels parts) := by
  induction parts with
  | nil => rfl
  | cons p ps ih =>
    have hps : ∀ q ∈ ps, q.length ≤ 255 := fun q hq => h q (List.mem_cons_of_mem _ hq)
    by_cases hp : p = []
    · simp [encode_qname, encode_labels, if_pos hp, ih hps]
    · have hlen : ¬255 < p.length := by
        have := h p (List.mem_cons_self _ _); omega
      simp [encode_qname, encode_labels, if_neg hp, if_neg hlen, ih hps]

/-- Claim C8 (counterexample to the claim as frozen): for the service name
consisting of a single 64-byte label (64 letters `a`), `build_query`
succeeds and returns a message instead of failing with an encode error. -/
theorem c8_counterexample :
    isOkB (build_query (List.replicate 64 97)) = true ∧
    63 < (List.replicate 64 97).length := by
  exact ⟨by rfl, by decide⟩

/-- Claim C8 (corrected, amended form): `build_query` does not enforce the
63-byte wire-format label limit.  It succeeds exactly when every label of
the full query name fits in one byte (length at most 255): labels of 64 to
255 bytes are encoded as-is (producing a length byte that the wire format
would misinterpret), and only a label longer than 255 bytes makes the call
throw (from `writeUInt8`'s range check). -/
theorem c8_no_63_byte_guard (sq : List Nat) :
    isOkB (build_query sq) = true ↔
      ∀ p ∈ (sq ++ dotLocal).splitOn 46, p.length ≤ 255 := by
  unfold build_query
  cases he : encode_qname ((sq ++ dotLocal).splitOn 46) with
  | error e =>
    simp only [he, isOkB]
    rw [← encode_qname_isOk, he]
    simp [isOkB]
  | ok qname =>
    simp only [he, isOkB]
    rw [← encode_qname_isOk, he]
    simp [isOkB]

/-- Witness for `c8_no_63_byte_guard`: the 64-byte-label query of
`c8_counterexample` satisfies the 255-byte bound, so the iff yields success. -/
theorem c8_witness : isOkB (build_query (List.replicate 64 97)) = true :=
  (c8_no_63_byte_guard (List.replicate 64 97)).mpr (by decide)

/-! ### C9: decoding the question name of an encoded query -/

theorem getElem?_append_cons (pre : List Nat) (x : Nat) (l : List Nat) :
    (pre ++ x :: l)[pre.length]? = some x := by
  induction pre with
  | nil => simp
  | cons a t ih => simpa using ih

theorem land192_of_le63 : ∀ n < 64, n &&& 192 = 0 := by decide

theorem modifyHead_append {α : Type} (f : α → α) (l m : List α) (h : l ≠ []) :
    (l ++ m).modifyHead f = l.modifyHead f ++ m := by
  cases l with
  | nil => exact absurd rfl h
  | cons a t => rfl

theorem splitOn_append_cons (xs ys : List Nat) (x : Nat) :
    (xs ++ x :: ys).splitOn x = xs.splitOn x ++ ys.splitOn x := by
  induction xs with
  | nil =>
    simp only [List.nil_append, List.splitOn]
    rw [List.splitOnP_cons]
    simp
  | cons a t ih =>
    simp only [List.cons_append, List.splitOn] at *
    rw [List.splitOnP_cons, List.splitOnP_cons]
    by_cases hax : (a == x) = true
    · simp only [hax, if_true, ih]
      rfl
    · simp only [hax, if_false, ih]
      exact modifyHead_append _ _ _ (List.splitOnP_ne_nil _ t)

/-- Decoding the label sequence produced by `encode_labels`: reading a name
at the start of the encoded labels (with arbitrary bytes before and after)
recovers exactly the original labels and ends right after the terminating
zero byte. -/
theorem read_name_go_encode (post : List Nat) :
    ∀ (parts : List (List Nat)) (pre : List Nat) (oo : Nat),
      (∀ p ∈ parts, p ≠ [] ∧ p.length ≤ 63) →
      read_name_go (pre ++ encode_labels parts ++ post) (parts.length + 1)
          pre.length false oo =
        some (.ok (parts, pre.length + (encode_labels parts).length)) := by
  intro parts
  induction parts with
  | nil =>
    intro pre oo _
    rw [read_name_go]
    have hbuf : pre ++ encode_labels [] ++ post = pre ++ 0 :: post := by
      simp [encode_labels]
    rw [hbuf, readUInt8_of_getElem (getElem?_append_cons pre 0 post)]
    simp [encode_labels]
  | cons p ps ih =>
    intro pre oo hparts
    obtain ⟨hpne, hple⟩ := hparts p (List.mem_cons_self _ _)
    have hps : ∀ q ∈ ps, q ≠ [] ∧ q.length ≤ 63 :=
      fun q hq => hparts q (List.mem_cons_of_mem _ hq)
    have henc : encode_labels (p :: ps) = (p.length :: p) ++ encode_labels ps := by
      simp [encode_labels, hpne]
    have hbuf1 : pre ++ encode_labels (p :: ps) ++ post =
        pre ++ p.length :: (p ++ (encode_labels ps ++ post)) := by
      rw [henc]; simp
    have h8 : readUInt8 (pre ++ encode_labels (p :: ps) ++ post) pre.length =
        .ok p.length := by
      rw [hbuf1]; exact readUInt8_of_getElem (getElem?_append_cons _ _ _)
    have hlen0 : p.length ≠ 0 := by
      simpa [List.length_eq_zero] using hpne
    have hnoptr : ¬(p.length &&& 0xC0 = 0xC0) := by
      have h0 : p.length &&& 192 = 0 := land192_of_le63 _ (by omega)
      simp [h0]
    have hlab : bufSub (pre ++ encode_labels (p :: ps) ++ post)
        (pre.length + 1) (pre.length + 1 + p.length) = p := by
      have hbuf3 : pre ++ encode_labels (p :: ps) ++ post =
          (pre ++ [p.length]) ++ (p ++ (encode_labels ps ++ post)) := by
        rw [henc]; simp
      unfold bufSub
      rw [hbuf3]
      have h1 : pre.length + 1 + p.length - (pre.length + 1) = p.length := by omega
      have h2 : pre.length + 1 = (pre ++ [p.length]).length := by simp
      rw [h1, h2, List.drop_left]
      have h3 : p.length = (p.take p.length).length := by simp
      exact List.take_left p (encode_labels ps ++ post)
    have hrec : read_name_go (pre ++ encode_labels (p :: ps) ++ post) (ps.length + 1)
        (pre.length + 1 + p.length) false oo =
        some (.ok (ps, pre.length + 1 + p.length + (encode_labels ps).length)) := by
      have hbuf2 : pre ++ encode_labels (p :: ps) ++ post =
          (pre ++ p.length :: p) ++ encode_labels ps ++ post := by
        rw [henc]; simp
      have hlenpre : pre.length + 1 + p.length = (pre ++ p.length :: p).length := by
        simp; omega
      rw [hbuf2, hlenpre]
      exact ih (pre ++ p.length :: p) oo hps
    rw [read_name_go, h8]
    simp only [if_neg hlen0, if_neg hnoptr, List.length_cons]
    rw [hrec]
    simp [hlab, henc]
    exact ⟨hbuf1 ▸ hlab, by omega⟩

/-- Claim C9 (confirmed): for every service name whose dot-separated labels
are all non-empty and at most 63 bytes, `build_query` succeeds, and decoding
the question name at offset 12 of its output with `read_name` yields back
exactly the original fully-qualified query name — the service name with
`.local` appended. -/
theorem c9_round_trip_name (sq : List Nat)
    (h : ∀ p ∈ sq.splitOn 46, p ≠ [] ∧ p.length ≤ 63) :
    build_query sq =
      .ok (queryHeader ++ encode_labels ((sq ++ dotLocal).splitOn 46) ++ queryFooter) ∧
    read_name (((sq ++ dotLocal).splitOn 46).length + 1)
        (queryHeader ++ encode_labels ((sq ++ dotLocal).splitOn 46) ++ queryFooter) 12 =
      some (.ok (sq ++ dotLocal,
        12 + (encode_labels ((sq ++ dotLocal).splitOn 46)).length)) := by
  have hsplit : (sq ++ dotLocal).splitOn 46 = sq.splitOn 46 ++ [localBytes] := by
    have hd : sq ++ dotLocal = sq ++ 46 :: localBytes := rfl
    rw [hd, splitOn_append_cons]
    rfl
  have hfull : ∀ p ∈ (sq ++ dotLocal).splitOn 46, p ≠ [] ∧ p.length ≤ 63 := by
    rw [hsplit]
    intro p hp
    rcases List.mem_append.mp hp with h1 | h2
    · exact h p h1
    · rw [List.mem_singleton] at h2
      subst h2
      exact ⟨by decide, by decide⟩
  have hname : List.intercalate [dotByte] ((sq ++ dotLocal).splitOn 46) =
      sq ++ dotLocal := by
    have hd : dotByte = 46 := rfl
    rw [hd]
    exact List.intercalate_splitOn (sq ++ dotLocal) 46
  constructor
  · have henc2 : encode_qname ((sq ++ dotLocal).splitOn 46) =
        .ok (encode_labels ((sq ++ dotLocal).splitOn 46)) :=
      encode_qname_eq_labels _ (fun p hp => le_trans (hfull p hp).2 (by omega))
    simp only [build_query, henc2]
  · unfold read_name
    have h12 : (12 : Nat) = queryHeader.length := rfl
    rw [h12, read_name_go_encode queryFooter _ queryHeader queryHeader.length hfull]
    simp [Except.map, hname]

/-- The bytes of the string `"_smart_ip._tcp"`, the library's default
service query. -/
def smartIpQueryBytes : List Nat :=
  [95, 115, 109, 97, 114, 116, 95, 105, 112, 46, 95, 116, 99, 112]

/-- Witness for `c9_round_trip_name`: the default service query
`_smart_ip._tcp` round-trips through encode and decode. -/
theorem c9_witness :
    build_query smartIpQueryBytes =
      .ok (queryHeader ++
        encode_labels ((smartIpQueryBytes ++ dotLocal).splitOn 46) ++ queryFooter) ∧
    read_name (((smartIpQueryBytes ++ dotLocal).splitOn 46).length + 1)
        (queryHeader ++
          encode_labels ((smartIpQueryBytes ++ dotLocal).splitOn 46) ++ queryFooter) 12 =
      some (.ok (smartIpQueryBytes ++ dotLocal,
        12 + (encode_labels ((smartIpQueryBytes ++ dotLocal).splitOn 46)).length)) :=
  c9_round_trip_name smartIpQueryBytes (by decide)

/-! ### Record parsing (mdns_lib.js lines 94-189) -/

/-- A TXT entry value: the substring after the first `=`, or the JS boolean
`true` when the entry carries no `=`. -/
inductive TxtVal
  | str (s : Name)
  | flagTrue
deriving DecidableEq

/-- A JS object used as a string map, in insertion order. -/
abbrev TxtMap := List (Name × TxtVal)

/-- JS object assignment `txts[key] = value`: overwrites in place when the
key exists, otherwise appends (JS objects preserve insertion order). -/
def obj_set (m : TxtMap) (k : Name) (v : TxtVal) : TxtMap :=
  if m.any (fun kv => kv.1 == k) then
    m.map (fun kv => if kv.1 == k then (k, v) else kv)
  else m ++ [(k, v)]

/-- The TXT rdata loop (lines 119-134): reads length-prefixed entries until
`endPos`, splitting each on the first `=`.  Returns the map and the final
offset (which can overshoot `endPos` when the last length byte lies).
Terminates because each step advances `offset` by at least one byte. -/
def parse_txt_go (buf : Buffer) (endPos : Nat) (offset : Nat) (acc : TxtMap) :
    Except String (TxtMap × Nat) :=
  if h : offset < endPos then
    match readUInt8 buf offset with
    | .error e => .error e
    | .ok txt_len =>
      let txt := bufSub buf (offset + 1) (offset + 1 + txt_len)
      let acc' :=
        match txt.findIdx? (fun c => c == 61) with
        | some i => obj_set acc (txt.take i) (.str (txt.drop (i + 1)))
        | none => obj_set acc txt .flagTrue
      parse_txt_go buf endPos (offset + 1 + txt_len) acc'
  else .ok (acc, offset)
termination_by endPos - offset
decreasing_by omega

/-- The typed rdata of a parsed record, by record type. -/
inductive RData
  | ptr (nm : Name)
  | srv (priority weight port : Nat) (target : Name)
  | txt (m : TxtMap)
  | a (addr : Name)
  | raw (bytes : List Nat)
deriving DecidableEq

/-- A record as returned by `parse_record` (without its `offset` field,
which the embedding returns separately). -/
structure DnsRecord where
  name : Name
  rtype : Nat
  cls : Nat
  ttl : Nat
  rdlength : Nat
  rdata : RData
deriving DecidableEq

/-- The decimal digits of a number, as a byte string (JS number-to-string
conversion used by `ip_bytes.join('.')`). -/
def natToDec (n : Nat) : Name := (Nat.toDigits 10 n).map Char.toNat

/-- `ip_bytes.join('.')` for an A record. -/
def joinIp (bs : List Nat) : Name := List.intercalate [dotByte] (bs.map natToDec)

/-- The A-record loop (lines 138-141): reads `n` single bytes. -/
def range_bytes (buf : Buffer) : Nat → Nat → Except String (List Nat)
  | _, 0 => .ok []
  | off, n + 1 =>
    match readUInt8 buf off with
    | .error e => .error e
    | .ok b =>
      match range_bytes buf (off + 1) n with
      | .error e => .error e
      | .ok rest => .ok (b :: rest)

/-- `parse_record(buffer, offset)` (lines 94-151): owner name, the fixed
fields `type(2) cls(2) ttl(4) rdlength(2)`, then type-directed rdata.  The
TXT branch returns its own final offset (the early return at line 136); all
other branches advance by `rdlength`. -/
def parse_record (fuel : Nat) (buf : Buffer) (offset0 : Nat) :
    Option (Except String (DnsRecord × Nat)) :=
  match read_name fuel buf offset0 with
  | none => none
  | some (.error e) => some (.error e)
  | some (.ok (name, rb)) =>
    let offset := rb
    match readUInt16BE buf offset with
    | .error e => some (.error e)
    | .ok rtype =>
      match readUInt16BE buf (offset + 2) with
      | .error e => some (.error e)
      | .ok cls =>
        match readUInt32BE buf (offset + 4) with
        | .error e => some (.error e)
        | .ok ttl =>
          match readUInt16BE buf (offset + 8) with
          | .error e => some (.error e)
          | .ok rdlength =>
            let offset := offset + 10
            if rtype = 12 then
              match read_name fuel buf offset with
              | none => none
              | some (.error e) => some (.error e)
              | some (.ok (ptrName, _)) =>
                some (.ok (⟨name, rtype, cls, ttl, rdlength, .ptr ptrName⟩,
                  offset + rdlength))
            else if rtype = 33 then
              match readUInt16BE buf offset with
              | .error e => some (.error e)
              | .ok priority =>
                match readUInt16BE buf (offset + 2) with
                | .error e => some (.error e)
                | .ok weight =>
                  match readUInt16BE buf (offset + 4) with
                  | .error e => some (.error e)
                  | .ok port =>
                    match read_name fuel buf (offset + 6) with
                    | none => none
                    | some (.error e) => some (.error e)
                    | some (.ok (target, _)) =>
                      some (.ok (⟨name, rtype, cls, ttl, rdlength,
                        .srv priority weight port target⟩, offset + rdlength))
            else if rtype = 16 then
              match parse_txt_go buf (offset + rdlength) offset [] with
              | .error e => some (.error e)
              | .ok (m, endOffset) =>
                some (.ok (⟨name, rtype, cls, ttl, rdlength, .txt m⟩, endOffset))
            else if rtype = 1 then
              match range_bytes buf offset rdlength with
              | .error e => some (.error e)
              | .ok bs =>
                some (.ok (⟨name, rtype, cls, ttl, rdlength, .a (joinIp bs)⟩,
                  offset + rdlength))
            else
              some (.ok (⟨name, rtype, cls, ttl, rdlength,
                .raw (bufSub buf offset (offset + rdlength))⟩, offset + rdlength))

/-- The parsed DNS header (lines 162-169). -/
structure DnsHeader where
  id : Nat
  flags : Nat
  qdcount : Nat
  ancount : Nat
  nscount : Nat
  arcount : Nat
deriving DecidableEq

def parse_header (buf : Buffer) : Except String DnsHeader := do
  let id ← readUInt16BE buf 0
  let flags ← readUInt16BE buf 2
  let qdcount ← readUInt16BE buf 4
  let ancount ← readUInt16BE buf 6
  let nscount ← readUInt16BE buf 8
  let arcount ← readUInt16BE buf 10
  return ⟨id, flags, qdcount, ancount, nscount, arcount⟩

/-- The question-skipping loop (lines 173-176): one decoded name plus 4
bytes of type and class, `qdcount` times. -/
def skip_questions (fuel : Nat) (buf : Buffer) : Nat → Nat → Option (Except String Nat)
  | 0, offset => some (.ok offset)
  | n + 1, offset =>
    match read_name fuel buf offset with
    | none => none
    | some (.error e) => some (.error e)
    | some (.ok (_, rb)) => skip_questions fuel buf n (rb + 4)

/-- The record loop (lines 178-184). -/
def parse_records_go (fuel : Nat) (buf : Buffer) :
    Nat → Nat → Option (Except String (List DnsRecord))
  | 0, _ => some (.ok [])
  | n + 1, offset =>
    match parse_record fuel buf offset with
    | none => none
    | some (.error e) => some (.error e)
    | some (.ok (rec, off')) =>
      match parse_records_go fuel buf n off' with
      | none => none
      | some (.error e) => some (.error e)
      | some (.ok recs) => some (.ok (rec :: recs))

/-- `parse_dns_message(buffer)` (lines 160-189): header, skip `qdcount`
questions, then `ancount + nscount + arcount` records. -/
def parse_dns_message (fuel : Nat) (buf : Buffer) :
    Option (Except String (DnsHeader × List DnsRecord)) :=
  match parse_header buf with
  | .error e => some (.error e)
  | .ok header =>
    match skip_questions fuel buf header.qdcount 12 with
    | none => none
    | some (.error e) => some (.error e)
    | some (.ok offset) =>
      match parse_records_go fuel buf
          (header.ancount + header.nscount + header.arcount) offset with
      | none => none
      | some (.error e) => some (.error e)
      | some (.ok records) => some (.ok (header, records))

/-! ### Device correlator (mdns_lib.js lines 235-269) -/

/-- One entry of the `services` object: built as `{ name }` and mutated in
place.  `none` models a field that has not been assigned. -/
structure SvcDevice where
  name : Name
  port : Option Nat := none
  target : Option Name := none
  txt : Option TxtMap := none
  addresses : Option (List Name) := none
deriving DecidableEq

/-- The `services` object: keys in insertion order (JS object semantics). -/
abbrev Services := List (Name × SvcDevice)

/-- `services[key]` lookup. -/
def svc_lookup : Services → Name → Option SvcDevice
  | [], _ => none
  | (k, d) :: rest, key => if k = key then some d else svc_lookup rest key

/-- In-place mutation of the entry at `key` (no-op when absent). -/
def svc_update (svcs : Services) (key : Name) (f : SvcDevice → SvcDevice) : Services :=
  svcs.map (fun kv => if kv.1 = key then (kv.1, f kv.2) else kv)

/-- `if (!services[key]) services[key] = { name: key }`. -/
def svc_ensure (svcs : Services) (key : Name) : Services :=
  match svc_lookup svcs key with
  | some _ => svcs
  | none => svcs ++ [(key, { name := key })]

/-- `is_smart_ip_service(name, full_service_query)` (lines 199-205). -/
def is_smart_ip_service (name full_service_query : Name) : Bool :=
  name == full_service_query || (dotByte :: full_service_query).isSuffixOf name

/-- One iteration of the record loop (lines 235-269).  The `match` guards on
`rec.rdata` mirror the payload shapes that `parse_record` always pairs with
each type tag; the fallback arms are unreachable for parsed records. -/
def apply_record (full_service_query : Name) (svcs : Services) (rec : DnsRecord) :
    Services :=
  if rec.rtype = 12 ∧ rec.name = full_service_query then
    match rec.rdata with
    | .ptr inst => svc_ensure svcs inst
    | _ => svcs
  else if rec.rtype = 33 ∧ is_smart_ip_service rec.name full_service_query = true then
    match rec.rdata with
    | .srv _ _ port target =>
      svc_update (svc_ensure svcs rec.name) rec.name
        (fun d => { d with port := some port, target := some target })
    | _ => svc_ensure svcs rec.name
  else if rec.rtype = 16 ∧ is_smart_ip_service rec.name full_service_query = true then
    match rec.rdata with
    | .txt m =>
      svc_update (svc_ensure svcs rec.name) rec.name (fun d => { d with txt := some m })
    | _ => svc_ensure svcs rec.name
  else if rec.rtype = 1 then
    match rec.rdata with
    | .a ip =>
      svcs.map (fun kv =>
        if kv.2.target = some rec.name then
          (kv.1, { kv.2 with addresses := some ((kv.2.addresses.getD []) ++ [ip]) })
        else kv)
    | _ => svcs
  else svcs

/-- The record loop over a whole message's records, in receipt order. -/
def apply_records (full_service_query : Name) (svcs : Services)
    (recs : List DnsRecord) : Services :=
  recs.foldl (apply_record full_service_query) svcs

/-! ### Emission and the session's unique-device map
(mdns_lib.js lines 271-294 and 342-350 / 383-390) -/

/-- `display_name`: the instance name with the `.` + full-service-query
suffix stripped (lines 274-278). -/
def display_name (name full_service_query : Name) : Name :=
  let suffix := dotByte :: full_service_query
  if suffix.isSuffixOf name then name.take (name.length - suffix.length) else name

/-- The service object passed to `on_service_found` (lines 287-292).  In JS
it holds `addresses: entry.addresses || []` — a live reference to the
entry's array when that array exists, else a fresh empty array — so the
embedding records the entry's key and whether the array existed
(`addrShared`) instead of a copied list; `port` and `properties` are copied
by value (`properties` references the parsed TXT object, which is never
mutated after parsing). -/
structure EmittedService where
  name : Name
  port : Option Nat
  properties : TxtMap
  instKey : Name
  addrShared : Bool
deriving DecidableEq

/-- The emission loop (lines 272-294): every in-scope entry of `services`
is emitted, in insertion order, after each processed message. -/
def emit_list (full_service_query : Name) (svcs : Services) : List EmittedService :=
  (svcs.filter (fun kv => is_smart_ip_service kv.2.name full_service_query)).map
    (fun kv =>
      { name := display_name kv.2.name full_service_query
        port := kv.2.port
        properties := kv.2.txt.getD []
        instKey := kv.1
        addrShared := kv.2.addresses.isSome })

/-- The wrapped `on_service_found` (lines 342-350 and 383-390): stores the
service under its name only if the name is not yet present. -/
def uniq_add (uniq : List (Name × EmittedService)) (s : EmittedService) :
    List (Name × EmittedService) :=
  match svc_assoc uniq s.name with
  | some _ => uniq
  | none => uniq ++ [(s.name, s)]
where
  svc_assoc : List (Name × EmittedService) → Name → Option EmittedService
    | [], _ => none
    | (k, d) :: rest, key => if k = key then some d else svc_assoc rest key

/-- All emissions of one message, folded into the unique map. -/
def uniq_fold (uniq : List (Name × EmittedService)) (emits : List EmittedService) :
    List (Name × EmittedService) :=
  emits.foldl uniq_add uniq

/-- The per-session state touched by the message handler: the correlator's
`services` object and the search's `unique_services` map. -/
structure SessionState where
  services : Services
  uniq : List (Name × EmittedService)
deriving DecidableEq

/-- The whole `socket.on('message', ...)` handler (lines 230-298): parse the
datagram; on a parse error the catch logs and leaves all state unchanged;
otherwise fold every record into `services` and emit.  `none` propagates
non-termination of `read_name`. -/
def handle_message (fuel : Nat) (full_service_query : Name) (st : SessionState)
    (msg : Buffer) : Option SessionState :=
  match parse_dns_message fuel msg with
  | none => none
  | some (.error _) => some st
  | some (.ok (_, records)) =>
    let services := apply_records full_service_query st.services records
    some { services := services
           uniq := uniq_fold st.uniq (emit_list full_service_query services) }

/-- The device list delivered at the deadline (lines 356-364 / 398-409):
`Array.from(unique_services.values())`, with each stored object's live
`addresses` reference resolved against the final `services` state.  The
entry's array is only ever appended to and entries are never removed, so
the shared reference's final contents are the final entry's addresses; a
non-shared (fresh) array is never touched again and stays empty. -/
structure DeliveredDevice where
  name : Name
  addresses : List Name
  port : Option Nat
  properties : TxtMap
deriving DecidableEq

def resolve_stored (finalSvcs : Services) (s : EmittedService) : DeliveredDevice :=
  { name := s.name
    port := s.port
    properties := s.properties
    addresses :=
      if s.addrShared then
        match svc_lookup finalSvcs s.instKey with
        | some d => d.addresses.getD []
        | none => []
      else [] }

def deliver (st : SessionState) : List DeliveredDevice :=
  st.uniq.map (fun kv => resolve_stored st.services kv.2)

/-! ### C10: a datagram that fails to parse leaves all session state unchanged -/

/-- Claim C10 (confirmed): the handler parses the whole datagram into
records before any state mutation begins, and its catch block only logs; so
whenever `parse_dns_message` throws, the correlator's `services` map and the
session's unique-device map are exactly as before the datagram. -/
theorem c10_parse_failure_leaves_state_unchanged
    (fuel : Nat) (fsq : Name) (st : SessionState) (msg : Buffer) (e : String)
    (h : parse_dns_message fuel msg = some (.error e)) :
    handle_message fuel fsq st msg = some st := by
  unfold handle_message
  rw [h]

/-- A non-trivial session state for the C10 witness. -/
def c10StateExample : SessionState :=
  { services := [([97], { name := [97], port := some 80 })]
    uniq := [([97], { name := [97], port := some 80, properties := []
                      instKey := [97], addrShared := false })] }

/-- Witness for `c10_parse_failure_leaves_state_unchanged`: the empty
datagram is truncated (the header read throws), and the state survives
untouched. -/
theorem c10_witness :
    handle_message 1 [95] c10StateExample [] = some c10StateExample :=
  c10_parse_failure_leaves_state_unchanged 1 [95] c10StateExample []
    "offset out of range" (by rfl)

/-! ### C1: order-dependence of record aggregation -/

def c1fsq : Name := [1]

def c1inst : Name := [2, 46, 1]

def c1ptr : DnsRecord := ⟨c1fsq, 12, 1, 120, 5, .ptr c1inst⟩

def c1srv : DnsRecord := ⟨c1inst, 33, 1, 120, 15, .srv 0 0 5353 [3]⟩

def c1txt : DnsRecord := ⟨c1inst, 16, 1, 120, 4, .txt [([107], .str [118])]⟩

def c1a : DnsRecord := ⟨[3], 1, 1, 120, 4, .a [52]⟩

/-- Claim C1 (counterexample to the claim as frozen): for a concrete
PTR/SRV/TXT/A quadruple, processing the A record first yields a device with
no addresses, while the PTR-SRV-TXT-A order yields one address — the final
`Device` entry is not identical across permutations of arrival order,
because an A record only enriches entries whose `target` is already set and
nothing re-correlates it when the SRV arrives later. -/
theorem c1_counterexample :
    svc_lookup (apply_records c1fsq [] [c1a, c1ptr, c1srv, c1txt]) c1inst =
      some { name := c1inst, port := some 5353, target := some [3],
             txt := some [([107], TxtVal.str [118])], addresses := none } ∧
    svc_lookup (apply_records c1fsq [] [c1ptr, c1srv, c1txt, c1a]) c1inst =
      some { name := c1inst, port := some 5353, target := some [3],
             txt := some [([107], TxtVal.str [118])], addresses := some [[52]] } ∧
    (none : Option (List Name)) ≠ some [[52]] :=
  ⟨by decide, by decide, by decide⟩

/-- All 24 arrival orders of four records. -/
def perms4 {α : Type} (w x y z : α) : List (List α) :=
  [[w, x, y, z], [w, x, z, y], [w, y, x, z], [w, y, z, x], [w, z, x, y], [w, z, y, x],
   [x, w, y, z], [x, w, z, y], [x, y, w, z], [x, y, z, w], [x, z, w, y], [x, z, y, w],
   [y, w, x, z], [y, w, z, x], [y, x, w, z], [y, x, z, w], [y, z, w, x], [y, z, x, w],
   [z, w, x, y], [z, w, y, x], [z, x, w, y], [z, x, y, w], [z, y, w, x], [z, y, x, w]]

/-- Whether the A record (type 1) arrives before the SRV record (type 33). -/
def a_before_srv (l : List DnsRecord) : Bool :=
  l.findIdx (fun r => r.rtype == 1) < l.findIdx (fun r => r.rtype == 33)

/-- Claim C1 (corrected, amended form): for every PTR/SRV/TXT/A quadruple
(PTR owned by the full service query naming instance `inst`, SRV and TXT
owned by `inst`, A owned by the SRV target), every arrival order in which
the SRV record precedes the A record yields the identical complete entry —
same name, port, properties, and address list `[ip]` — while every order in
which the A record precedes the SRV yields the same entry but with no
addresses at all. -/
theorem c1_aggregation_amended (fsq inst tgt ip : Name)
    (priority weight port : Nat) (props : TxtMap)
    (cls1 ttl1 rdl1 cls2 ttl2 rdl2 cls3 ttl3 rdl3 cls4 ttl4 rdl4 : Nat)
    (hs : is_smart_ip_service inst fsq = true) :
    ∀ l ∈ perms4 (⟨fsq, 12, cls1, ttl1, rdl1, .ptr inst⟩ : DnsRecord)
        (⟨inst, 33, cls2, ttl2, rdl2, .srv priority weight port tgt⟩ : DnsRecord)
        (⟨inst, 16, cls3, ttl3, rdl3, .txt props⟩ : DnsRecord)
        (⟨tgt, 1, cls4, ttl4, rdl4, .a ip⟩ : DnsRecord),
      apply_records fsq [] l =
        [(inst, { name := inst, port := some port, target := some tgt,
                  txt := some props,
                  addresses := if a_before_srv l then none else some [ip] })] := by
  intro l hl
  fin_cases hl <;>
    simp [apply_records, apply_record, svc_ensure, svc_lookup, svc_update,
      hs, a_before_srv, List.findIdx_cons]

/-- Witness for `c1_aggregation_amended` at the concrete records of
`c1_counterexample`, in PTR-SRV-TXT-A order. -/
theorem c1_witness :
    apply_records c1fsq [] [c1ptr, c1srv, c1txt, c1a] =
      [(c1inst, { name := c1inst, port := some 5353, target := some [3],
                  txt := some [([107], TxtVal.str [118])],
                  addresses := if a_before_srv [c1ptr, c1srv, c1txt, c1a] then none
                    else some [[52]] })] :=
  c1_aggregation_amended c1fsq c1inst [3] [52] 0 0 5353 [([107], .str [118])]
    1 120 5 1 120 15 1 120 4 1 120 4 (by decide) _ (by decide)

/-! ### C5: per-name uniqueness, in-place mutation, and what is delivered -/

theorem svc_lookup_none_not_mem (svcs : Services) (key : Name)
    (h : svc_lookup svcs key = none) : key ∉ svcs.map Prod.fst := by
  induction svcs with
  | nil => simp
  | cons kv rest ih =>
    obtain ⟨k, d⟩ := kv
    rw [svc_lookup] at h
    by_cases hk : k = key
    · rw [if_pos hk] at h; exact absurd h (by simp)
    · rw [if_neg hk] at h
      simp only [List.map_cons, List.mem_cons]
      rintro (rfl | hmem)
      · exact hk rfl
      · exact ih h hmem

theorem map_fst_preserving {g : Name × SvcDevice → Name × SvcDevice}
    (hg : ∀ kv, (g kv).1 = kv.1) (svcs : Services) :
    (svcs.map g).map Prod.fst = svcs.map Prod.fst := by
  induction svcs with
  | nil => rfl
  | cons kv rest ih => simp [hg kv, ih]

theorem svc_update_keys (svcs : Services) (key : Name) (f : SvcDevice → SvcDevice) :
    (svc_update svcs key f).map Prod.fst = svcs.map Prod.fst :=
  map_fst_preserving (fun kv => by by_cases h : kv.1 = key <;> simp [h]) svcs

theorem svc_lookup_map {g : Name × SvcDevice → Name × SvcDevice}
    (hg : ∀ kv, (g kv).1 = kv.1) :
    ∀ (svcs : Services) (key : Name) (d : SvcDevice),
      svc_lookup svcs key = some d →
      svc_lookup (svcs.map g) key = some (g (key, d)).2 := by
  intro svcs
  induction svcs with
  | nil => intro key d h; exact absurd h (by simp [svc_lookup])
  | cons kv rest ih =>
    intro key d h
    obtain ⟨k, dd⟩ := kv
    rw [svc_lookup] at h
    rw [List.map_cons, svc_lookup]
    have hfst : (g (k, dd)).1 = k := hg (k, dd)
    by_cases hk : k = key
    · rw [if_pos hk] at h
      have hd : dd = d := by simpa using h
      rw [hfst, if_pos hk]
      subst hd
      subst hk
      rfl
    · rw [if_neg hk] at h
      rw [hfst, if_neg hk]
      exact ih key d h

theorem svc_ensure_keys_nodup (svcs : Services) (key : Name)
    (h : (svcs.map Prod.fst).Nodup) :
    ((svc_ensure svcs key).map Prod.fst).Nodup := by
  rw [svc_ensure]
  cases hl : svc_lookup svcs key with
  | some d => exact h
  | none =>
    have hnm := svc_lookup_none_not_mem svcs key hl
    rw [List.map_append]
    simp [List.nodup_append, h]
    intro x hx
    exact hnm (List.mem_map_of_mem Prod.fst hx)

theorem apply_record_keys_nodup (fsq : Name) (svcs : Services) (rec : DnsRecord)
    (h : (svcs.map Prod.fst).Nodup) :
    ((apply_record fsq svcs rec).map Prod.fst).Nodup := by
  rw [apply_record]
  by_cases h1 : rec.rtype = 12 ∧ rec.name = fsq
  · rw [if_pos h1]
    cases rec.rdata <;> first
      | exact h
      | exact svc_ensure_keys_nodup _ _ h
  · rw [if_neg h1]
    by_cases h2 : rec.rtype = 33 ∧ is_smart_ip_service rec.name fsq = true
    · rw [if_pos h2]
      cases rec.rdata <;> first
        | exact svc_ensure_keys_nodup _ _ h
        | · rw [svc_update_keys]
            exact svc_ensure_keys_nodup _ _ h
    · rw [if_neg h2]
      by_cases h3 : rec.rtype = 16 ∧ is_smart_ip_service rec.name fsq = true
      · rw [if_pos h3]
        cases rec.rdata <;> first
          | exact svc_ensure_keys_nodup _ _ h
          | · rw [svc_update_keys]
              exact svc_ensure_keys_nodup _ _ h
      · rw [if_neg h3]
        by_cases h4 : rec.rtype = 1
        · rw [if_pos h4]
          cases rec.rdata <;> first
            | exact h
            | · rw [map_fst_preserving
                  (fun kv => by by_cases hc : kv.2.target = some rec.name <;> simp [hc])]
                exact h
        · rw [if_neg h4]
          exact h

theorem apply_records_keys_nodup (fsq : Name) :
    ∀ (recs : List DnsRecord) (svcs : Services),
      (svcs.map Prod.fst).Nodup →
      ((apply_records fsq svcs recs).map Prod.fst).Nodup := by
  intro recs
  induction recs with
  | nil => intro svcs h; exact h
  | cons r rs ih =>
    intro svcs h
    exact ih (apply_record fsq svcs r) (apply_record_keys_nodup fsq svcs r h)

theorem svc_lookup_append_self (l : Services) (k : Name) (d : SvcDevice)
    (h : svc_lookup l k = none) : svc_lookup (l ++ [(k, d)]) k = some d := by
  induction l with
  | nil => simp [svc_lookup]
  | cons kv rest ih =>
    obtain ⟨k', d'⟩ := kv
    rw [svc_lookup] at h
    rw [List.cons_append, svc_lookup]
    by_cases hk : k' = k
    · rw [if_pos hk] at h; exact absurd h (by simp)
    · rw [if_neg hk] at h
      rw [if_neg hk]
      exact ih h

theorem svc_ensure_exists (svcs : Services) (k : Name) (d : SvcDevice)
    (h : svc_lookup svcs k = some d) : svc_ensure svcs k = svcs := by
  rw [svc_ensure, h]

theorem svc_ensure_idem (svcs : Services) (k : Name) :
    svc_ensure (svc_ensure svcs k) k = svc_ensure svcs k := by
  cases h : svc_lookup svcs k with
  | some d =>
    have h1 : svc_ensure svcs k = svcs := svc_ensure_exists svcs k d h
    rw [h1]
    exact h1
  | none =>
    have h2 : svc_ensure svcs k = svcs ++ [(k, { name := k })] := by
      rw [svc_ensure, h]
    rw [h2]
    exact svc_ensure_exists _ k _ (svc_lookup_append_self svcs k _ h)

theorem uniq_assoc_append (uniq l : List (Name × EmittedService)) (nm : Name)
    (s : EmittedService) (h : uniq_add.svc_assoc uniq nm = some s) :
    uniq_add.svc_assoc (uniq ++ l) nm = some s := by
  induction uniq with
  | nil => exact absurd h (by simp [uniq_add.svc_assoc])
  | cons kv rest ih =>
    obtain ⟨k, d⟩ := kv
    rw [uniq_add.svc_assoc] at h
    rw [List.cons_append, uniq_add.svc_assoc]
    by_cases hk : k = nm
    · rw [if_pos hk] at h; rw [if_pos hk]; exact h
    · rw [if_neg hk] at h; rw [if_neg hk]; exact ih h

theorem uniq_add_preserves (uniq : List (Name × EmittedService)) (e : EmittedService)
    (nm : Name) (s : EmittedService) (h : uniq_add.svc_assoc uniq nm = some s) :
    uniq_add.svc_assoc (uniq_add uniq e) nm = some s := by
  rw [uniq_add]
  cases he : uniq_add.svc_assoc uniq e.name with
  | some _ => exact h
  | none => exact uniq_assoc_append uniq _ nm s h

theorem uniq_fold_first_wins :
    ∀ (emits : List EmittedService) (uniq : List (Name × EmittedService))
      (nm : Name) (s : EmittedService),
      uniq_add.svc_assoc uniq nm = some s →
      uniq_add.svc_assoc (uniq_fold uniq emits) nm = some s := by
  intro emits
  induction emits with
  | nil => intro uniq nm s h; exact h
  | cons e es ih =>
    intro uniq nm s h
    exact ih (uniq_add uniq e) nm s (uniq_add_preserves uniq e nm s h)

/-- Claim C5 (corrected, amended form): (1) starting from an empty map, any
record sequence leaves the `services` keys free of duplicates — at most one
entry per instance name; (2) a repeated PTR record is a no-op the second
time (two PTRs for one instance yield exactly one entry); (3,4) an SRV or
TXT record for an existing instance mutates that entry's fields in place,
changing no keys; (5) an A record never changes the key set and appends the
address to each entry whose `target` matches its owner; (6) but the
session's unique-device map keeps the snapshot stored at a name's first
emission: once a name is present, no later emission changes its stored
value, so later-message updates to `port` or `properties` never reach the
device delivered at the deadline. -/
theorem c5_uniqueness_and_mutation :
    (∀ (fsq : Name) (recs : List DnsRecord),
      ((apply_records fsq [] recs).map Prod.fst).Nodup)
    ∧ (∀ (fsq inst : Name) (cls ttl rdl : Nat) (svcs : Services),
      apply_record fsq (apply_record fsq svcs ⟨fsq, 12, cls, ttl, rdl, .ptr inst⟩)
          ⟨fsq, 12, cls, ttl, rdl, .ptr inst⟩ =
        apply_record fsq svcs ⟨fsq, 12, cls, ttl, rdl, .ptr inst⟩)
    ∧ (∀ (fsq inst tgt : Name) (cls ttl rdl priority weight port : Nat)
        (svcs : Services) (d : SvcDevice),
      svc_lookup svcs inst = some d →
      is_smart_ip_service inst fsq = true →
      (apply_record fsq svcs
          ⟨inst, 33, cls, ttl, rdl, .srv priority weight port tgt⟩).map Prod.fst =
        svcs.map Prod.fst ∧
      svc_lookup (apply_record fsq svcs
          ⟨inst, 33, cls, ttl, rdl, .srv priority weight port tgt⟩) inst =
        some { d with port := some port, target := some tgt })
    ∧ (∀ (fsq inst : Name) (cls ttl rdl : Nat) (m : TxtMap)
        (svcs : Services) (d : SvcDevice),
      svc_lookup svcs inst = some d →
      is_smart_ip_service inst fsq = true →
      (apply_record fsq svcs ⟨inst, 16, cls, ttl, rdl, .txt m⟩).map Prod.fst =
        svcs.map Prod.fst ∧
      svc_lookup (apply_record fsq svcs ⟨inst, 16, cls, ttl, rdl, .txt m⟩) inst =
        some { d with txt := some m })
    ∧ (∀ (fsq tgt ip k : Name) (cls ttl rdl : Nat) (svcs : Services) (d : SvcDevice),
      (apply_record fsq svcs ⟨tgt, 1, cls, ttl, rdl, .a ip⟩).map Prod.fst =
        svcs.map Prod.fst ∧
      (svc_lookup svcs k = some d → d.target = some tgt →
        svc_lookup (apply_record fsq svcs ⟨tgt, 1, cls, ttl, rdl, .a ip⟩) k =
          some { d with addresses := some (d.addresses.getD [] ++ [ip]) }))
    ∧ (∀ (emits : List EmittedService) (uniq : List (Name × EmittedService))
        (nm : Name) (s : EmittedService),
      uniq_add.svc_assoc uniq nm = some s →
      uniq_add.svc_assoc (uniq_fold uniq emits) nm = some s) := by
  refine ⟨?_, ?_, ?_, ?_, ?_, uniq_fold_first_wins⟩
  · intro fsq recs
    exact apply_records_keys_nodup fsq recs [] (by simp)
  · intro fsq inst cls ttl rdl svcs
    have happ : ∀ s : Services,
        apply_record fsq s ⟨fsq, 12, cls, ttl, rdl, .ptr inst⟩ = svc_ensure s inst := by
      intro s; simp [apply_record]
    rw [happ, happ]
    exact svc_ensure_idem svcs inst
  · intro fsq inst tgt cls ttl rdl priority weight port svcs d hlook hs
    have hens : svc_ensure svcs inst = svcs := svc_ensure_exists svcs inst d hlook
    have happ : apply_record fsq svcs
        ⟨inst, 33, cls, ttl, rdl, .srv priority weight port tgt⟩ =
        svc_update svcs inst
          (fun dd => { dd with port := some port, target := some tgt }) := by
      simp [apply_record, hs, hens]
    rw [happ]
    refine ⟨svc_update_keys svcs inst _, ?_⟩
    have := svc_lookup_map
      (g := fun kv => if kv.1 = inst then
        (kv.1, { kv.2 with port := some port, target := some tgt }) else kv)
      (fun kv => by by_cases hc : kv.1 = inst <;> simp [hc]) svcs inst d hlook
    simpa [svc_update] using this
  · intro fsq inst cls ttl rdl m svcs d hlook hs
    have hens : svc_ensure svcs inst = svcs := svc_ensure_exists svcs inst d hlook
    have happ : apply_record fsq svcs ⟨inst, 16, cls, ttl, rdl, .txt m⟩ =
        svc_update svcs inst (fun dd => { dd with txt := some m }) := by
      simp [apply_record, hs, hens]
    rw [happ]
    refine ⟨svc_update_keys svcs inst _, ?_⟩
    have := svc_lookup_map
      (g := fun kv => if kv.1 = inst then (kv.1, { kv.2 with txt := some m }) else kv)
      (fun kv => by by_cases hc : kv.1 = inst <;> simp [hc]) svcs inst d hlook
    simpa [svc_update] using this
  · intro fsq tgt ip k cls ttl rdl svcs d
    have happ : apply_record fsq svcs ⟨tgt, 1, cls, ttl, rdl, .a ip⟩ =
        svcs.map (fun kv => if kv.2.target = some tgt then
          (kv.1, { kv.2 with addresses := some ((kv.2.addresses.getD []) ++ [ip]) })
          else kv) := by
      simp [apply_record]
    rw [happ]
    constructor
    · exact map_fst_preserving
        (fun kv => by by_cases hc : kv.2.target = some tgt <;> simp [hc]) svcs
    · intro hlook htgt
      have := svc_lookup_map
        (g := fun kv => if kv.2.target = some tgt then
          (kv.1, { kv.2 with addresses := some ((kv.2.addresses.getD []) ++ [ip]) })
          else kv)
        (fun kv => by by_cases hc : kv.2.target = some tgt <;> simp [hc]) svcs k d hlook
      simpa [htgt] using this

def c5dev : SvcDevice := { name := c1inst }

def c5stored : EmittedService :=
  { name := [100], port := none, properties := [], instKey := c1inst, addrShared := false }

def c5stored2 : EmittedService :=
  { name := [100], port := some 5353, properties := [], instKey := c1inst,
    addrShared := false }

/-- Witness for `c5_uniqueness_and_mutation` at concrete records: a repeated
PTR, an SRV/TXT/A applied to an existing entry, and a second emission that
does not displace the stored first snapshot. -/
theorem c5_witness :
    ((apply_records c1fsq [] [c1ptr, c1ptr]).map Prod.fst).Nodup ∧
    apply_record c1fsq (apply_record c1fsq [] c1ptr) c1ptr =
      apply_record c1fsq [] c1ptr ∧
    svc_lookup (apply_record c1fsq [(c1inst, c5dev)] c1srv) c1inst =
      some { c5dev with port := some 5353, target := some [3] } ∧
    svc_lookup (apply_record c1fsq [(c1inst, c5dev)] c1txt) c1inst =
      some { c5dev with txt := some [([107], TxtVal.str [118])] } ∧
    svc_lookup (apply_record c1fsq
        [(c1inst, { c5dev with target := some [3] })] c1a) c1inst =
      some { c5dev with target := some [3], addresses := some [[52]] } ∧
    uniq_add.svc_assoc (uniq_fold [([100], c5stored)] [c5stored2]) [100] =
      some c5stored := by
  obtain ⟨h1, h2, h3, h4, h5, h6⟩ := c5_uniqueness_and_mutation
  refine ⟨h1 c1fsq [c1ptr, c1ptr],
    h2 c1fsq c1inst 1 120 5 [],
    (h3 c1fsq c1inst [3] 1 120 15 0 0 5353 [(c1inst, c5dev)] c5dev
      (by decide) (by decide)).2,
    (h4 c1fsq c1inst 1 120 4 [([107], .str [118])] [(c1inst, c5dev)] c5dev
      (by decide) (by decide)).2,
    (h5 c1fsq [3] [52] c1inst 1 120 4
      [(c1inst, { c5dev with target := some [3] })]
      { c5dev with target := some [3] }).2 (by decide) (by decide),
    h6 [c5stored2] [([100], c5stored)] [100] c5stored (by decide)⟩

def c5fsq : Name := [95, 115, 46, 108, 111, 99, 97, 108]

def c5inst : Name := [100, 46, 95, 115, 46, 108, 111, 99, 97, 108]

def c5tgt : Name := [104, 46, 108, 111, 99, 97, 108]

/-- A datagram whose single answer is a PTR record: owner `_s.local`,
rdata the instance `d._s.local`. -/
def c5msg1 : Buffer :=
  [0, 0, 0, 0, 0, 0, 0, 1, 0, 0, 0, 0,
   2, 95, 115, 5, 108, 111, 99, 97, 108, 0,
   0, 12, 0, 1, 0, 0, 0, 120, 0, 12,
   1, 100, 2, 95, 115, 5, 108, 111, 99, 97, 108, 0]

/-- A later datagram whose single answer is an SRV record for the same
instance: priority 0, weight 0, port 5353, target `h.local`. -/
def c5msg2 : Buffer :=
  [0, 0, 0, 0, 0, 0, 0, 1, 0, 0, 0, 0,
   1, 100, 2, 95, 115, 5, 108, 111, 99, 97, 108, 0,
   0, 33, 0, 1, 0, 0, 0, 120, 0, 15,
   0, 0, 0, 0, 20, 233,
   1, 104, 5, 108, 111, 99, 97, 108, 0]

/-- The session state after handling `c5msg1` then `c5msg2`. -/
def c5run : Option SessionState :=
  (handle_message 8 c5fsq { services := [], uniq := [] } c5msg1).bind
    (fun st1 => handle_message 8 c5fsq st1 c5msg2)

/-- Claim C5 (counterexample to the claim as frozen): after a first message
carrying only the PTR and a later message carrying the SRV (port 5353), the
correlator's entry has indeed been mutated in place to `port = 5353`, but
the device delivered at the deadline still has no port: the unique-device
map stored the first emission's snapshot and later emissions never update
it, so the SRV update is not reflected in the delivered `Device`. -/
theorem c5_counterexample :
    (c5run.map (fun st => svc_lookup st.services c5inst)).getD none =
      some { name := c5inst, port := some 5353, target := some c5tgt,
             txt := none, addresses := none } ∧
    (c5run.map (fun st => (deliver st).map (fun dv => (dv.name, dv.port)))).getD [] =
      [([100], none)] :=
  ⟨by decide, by decide⟩

/-! ### C2: result delivery channels of `search_mdns_servicesmv1`
(mdns_lib.js lines 398-409) -/

/-- The two channels through which a final result can reach the caller. -/
inductive DeliveryChannel
  | completionCallback
  | promiseResolve
deriving DecidableEq

/-- The deadline handler of `search_mdns_servicesmv1` (lines 398-409) as the
sequence of deliveries it performs: it closes the socket, builds
`uniqueServiceArray` once, then — in this order — invokes
`on_search_complete` when the caller supplied a function, and resolves the
promise.  The handler is armed by a single `setTimeout`, so it runs exactly
once per session. -/
def mv1_deadline_events (has_complete_cb : Bool)
    (uniq : List (Name × EmittedService)) :
    List (DeliveryChannel × List EmittedService) :=
  let uniqueServiceArray := uniq.map Prod.snd
  (if has_complete_cb then [(.completionCallback, uniqueServiceArray)] else [])
    ++ [(.promiseResolve, uniqueServiceArray)]

/-- Claim C2 (counterexample to the claim as frozen): when the caller
supplies both a promise consumer and an `on_search_complete` callback, the
deadline handler delivers through BOTH channels — the callback is invoked
and then the promise is resolved — not through exactly one. -/
theorem c2_counterexample :
    (mv1_deadline_events true []).map Prod.fst =
      [DeliveryChannel.completionCallback, DeliveryChannel.promiseResolve] ∧
    ((mv1_deadline_events true []).map Prod.fst).length ≠ 1 :=
  ⟨by decide, by decide⟩

/-- Claim C2 (corrected, amended form): each channel fires at most once per
session — the promise is resolved exactly once, and the terminal callback
is invoked exactly once when supplied and never otherwise — and every
delivery carries the same unique-service array; but when the caller
supplies both a callback and a promise consumer, both channels deliver. -/
theorem c2_delivery_amended (cb : Bool) (uniq : List (Name × EmittedService)) :
    ((mv1_deadline_events cb uniq).map Prod.fst).count DeliveryChannel.promiseResolve
        = 1 ∧
    ((mv1_deadline_events cb uniq).map Prod.fst).count DeliveryChannel.completionCallback
        = (if cb then 1 else 0) ∧
    ∀ ev ∈ mv1_deadline_events cb uniq, ev.2 = uniq.map Prod.snd := by
  cases cb <;> simp [mv1_deadline_events, List.count_cons]

def c2svc : EmittedService :=
  { name := [97], port := some 1, properties := [], instKey := [97],
    addrShared := false }

/-- Witness for `c2_delivery_amended` with a callback supplied and one
stored service. -/
theorem c2_witness :
    ((mv1_deadline_events true [([97], c2svc)]).map Prod.fst).count
        DeliveryChannel.promiseResolve = 1 ∧
    ((mv1_deadline_events true [([97], c2svc)]).map Prod.fst).count
        DeliveryChannel.completionCallback = 1 ∧
    ((DeliveryChannel.completionCallback, [c2svc]) :
        DeliveryChannel × List EmittedService).2 = [([97], c2svc)].map Prod.snd := by
  obtain ⟨h1, h2, h3⟩ := c2_delivery_amended true [([97], c2svc)]
  exact ⟨h1, by simpa using h2,
    h3 (DeliveryChannel.completionCallback, [c2svc]) (by decide)⟩

/-! ### C6: the local interface address (mdns_lib.js lines 218-228) -/

/-- JS `a || b` where `a` is a string option: an absent field and the empty
string are falsy. -/
def js_or_str (v : Option Name) (dflt : Name) : Name :=
  match v with
  | some s => if s = [] then dflt else s
  | none => dflt

/-- JS `a || b` where `a` is a number option: an absent field and `0` are
falsy. -/
def js_or_num (v : Option Nat) (dflt : Nat) : Nat :=
  match v with
  | some n => if n = 0 then dflt else n
  | none => dflt

/-- The options accepted by `start_mdns_listener`; `none` models an absent
field. -/
structure ListenerOptions where
  mdns_address : Option Name := none
  mdns_port : Option Nat := none
  iface : Option Name := none
  service_query : Option Name := none
deriving DecidableEq

/-- The bytes of `"224.0.0.251"`. -/
def addr224 : Name := [50, 50, 52, 46, 48, 46, 48, 46, 50, 53, 49]

/-- The bytes of `"169.254.137.22"`, the hard-coded default interface. -/
def addr169 : Name := [49, 54, 57, 46, 50, 53, 52, 46, 49, 51, 55, 46, 50, 50]

/-- The configuration values resolved at lines 219-224 (`options.interface`
is the `iface` field).  This step is total: no check rejects an unset
interface, and `socket.bind` is then called with the resolved value. -/
structure ResolvedListener where
  mdns_address : Name
  mdns_port : Nat
  iface : Name
  service_query : Name
  full_service_query : Name
deriving DecidableEq

def resolve_listener_options (o : ListenerOptions) : ResolvedListener :=
  { mdns_address := js_or_str o.mdns_address addr224
    mdns_port := js_or_num o.mdns_port 5353
    iface := js_or_str o.iface addr169
    service_query := js_or_str o.service_query smartIpQueryBytes
    full_service_query := js_or_str o.service_query smartIpQueryBytes ++ dotLocal }

/-- Claim C6 (counterexample to the claim as frozen): invoking the listener
with no interface set does not fail — option resolution is total and
silently substitutes the hard-coded default `169.254.137.22`, which the
socket is then bound to. -/
theorem c6_counterexample :
    (resolve_listener_options {}).iface = addr169 ∧ addr169 ≠ [] :=
  ⟨by decide, by decide⟩

/-- Claim C6 (corrected, amended form): the local interface address is not
required — when it is unset (or empty) the listener silently falls back to
the hard-coded default `169.254.137.22` and proceeds to bind, and when a
non-empty address is supplied that address is used. -/
theorem c6_interface_default_amended (o : ListenerOptions) :
    (o.iface = none → (resolve_listener_options o).iface = addr169) ∧
    (∀ s, o.iface = some s → s ≠ [] → (resolve_listener_options o).iface = s) := by
  constructor
  · intro h
    simp [resolve_listener_options, js_or_str, h]
  · intro s hs hne
    simp [resolve_listener_options, js_or_str, hs, hne]

/-- Witness for `c6_interface_default_amended`: an unset interface resolves
to the default, and a supplied one is kept. -/
theorem c6_witness :
    (resolve_listener_options {}).iface = addr169 ∧
    (resolve_listener_options { iface := some [49] }).iface = [49] :=
  ⟨(c6_interface_default_amended {}).1 rfl,
   (c6_interface_default_amended { iface := some [49] }).2 [49] rfl (by decide)⟩

/-! ### C7: timeout handling (mdns_lib.js lines 336 and 378) -/

/-- `search_mdns_services`: `const timeout = options.timeout || 5000` —
`0` (and an absent value) is falsy and replaced, any other number,
including a negative one, is kept.  (`NaN`, also falsy in JS, has no
integer representation and is modelled as absent.) -/
def search_timeout_resolve (t : Option Int) : Int :=
  match t with
  | some v => if v = 0 then 5000 else v
  | none => 5000

/-- `search_mdns_servicesmv1`: `typeof options.timeout === 'number' &&
options.timeout > 0 ? options.timeout : 5000` — any value that is not a
positive number is silently replaced by the default. -/
def mv1_timeout_resolve (t : Option Int) : Int :=
  match t with
  | some v => if 0 < v then v else 5000
  | none => 5000

/-- Claim C7 (counterexample to the claim as frozen): a negative timeout is
not a positive number, yet neither API fails — there is no
`InvalidConfigError` anywhere in the code.  `search_mdns_services` keeps
`-7` as the timer value (the two APIs do not even agree), and
`search_mdns_servicesmv1` silently substitutes 5000; both then proceed to
open the socket. -/
theorem c7_counterexample :
    search_timeout_resolve (some (-7)) = -7 ∧
    mv1_timeout_resolve (some (-7)) = 5000 ∧
    (-7 : Int) ≤ 0 :=
  ⟨by decide, by decide, by decide⟩

/-- Claim C7 (corrected, amended form): neither search API validates the
timeout or raises an error.  `search_mdns_servicesmv1` silently replaces
every non-positive (or absent) timeout with 5000, so its timer value is
always positive; `search_mdns_services` replaces only the falsy values `0`
and absent, passing negative timeouts through unchanged to `setTimeout`. -/
theorem c7_timeout_amended :
    (∀ t : Option Int, 0 < mv1_timeout_resolve t) ∧
    (∀ v : Int, v ≤ 0 → mv1_timeout_resolve (some v) = 5000) ∧
    search_timeout_resolve none = 5000 ∧
    search_timeout_resolve (some 0) = 5000 ∧
    (∀ v : Int, v ≠ 0 → search_timeout_resolve (some v) = v) := by
  refine ⟨?_, ?_, rfl, by decide, ?_⟩
  · intro t
    cases t with
    | none => decide
    | some v =>
      by_cases h : 0 < v
      · simpa [mv1_timeout_resolve, h] using h
      · simp [mv1_timeout_resolve, h]
  · intro v h
    have : ¬0 < v := by omega
    simp [mv1_timeout_resolve, this]
  · intro v h
    simp [search_timeout_resolve, h]

/-- Witness for `c7_timeout_amended` at the timeout `-7`. -/
theorem c7_witness :
    0 < mv1_timeout_resolve (some (-7)) ∧
    mv1_timeout_resolve (some (-7)) = 5000 ∧
    search_timeout_resolve (some (-7)) = -7 := by
  obtain ⟨h1, h2, _, _, h5⟩ := c7_timeout_amended
  exact ⟨h1 (some (-7)), h2 (-7) (by norm_num), h5 (-7) (by norm_num)⟩

end MdnsLib
